import Mathlib

/-
Verification of the Hammer repository (a thin vulkano wrapper plus a
triangle-drawing example): shallow embedding of
  - adapter selection            (src/hammer/instance.rs)
  - surface / swapchain lifecycle (src/hammer/surface.rs)
  - the per-frame event loop      (src/main.rs, RedrawEventsCleared arm)
External library calls (vulkano driver operations: swapchain creation and
recreation, image acquisition, flush) are modelled as oracle inputs, since
their outcomes are decided by the graphics driver, not by this repository.
Rust panics are modelled as `Except.error` with the panic message.
-/

namespace Hammer

/- ## Adapter selection (src/hammer/instance.rs) -/

/-- `vulkano::PhysicalDeviceType`, as matched in `Instance::request_adapter`. -/
inductive PhysicalDeviceType where
  | discreteGpu
  | integratedGpu
  | virtualGpu
  | cpu
  | other
deriving DecidableEq, Repr

/-- The `min_by_key` key of `Instance::request_adapter` (instance.rs lines 39-45). -/
def deviceTypeRank : PhysicalDeviceType → Nat
  | .discreteGpu => 0
  | .integratedGpu => 1
  | .virtualGpu => 2
  | .cpu => 3
  | .other => 4

/-- A `vulkano::QueueFamily` as consulted by `AdapterDescriptor::compatible`.
`supports_surface_result` models the `Result` of `supports_surface(&surface)`
for the surface named in the descriptor (`unwrap_or(false)` is applied at the
use site, as in the source). -/
structure QueueFamily where
  supports_graphics : Bool
  supports_compute : Bool
  supports_surface_result : Option Bool
deriving DecidableEq, Repr

/-- A physical device as consulted by `Instance::request_adapter`.
`vulkano::DeviceExtensions` is a record of booleans, one per known extension;
we model an extension set as the list of identifiers of its enabled
extensions. The device name, used only for logging, is omitted. -/
structure PhysicalDevice where
  deviceType : PhysicalDeviceType
  supportedExtensions : List Nat
  queueFamilies : List QueueFamily
deriving DecidableEq, Repr

/-- `DeviceExtensions::is_superset_of`: every extension enabled in `req` is
enabled in `sup`. -/
def isSupersetOf (sup req : List Nat) : Bool :=
  req.all (fun e => sup.contains e)

/-- `AdapterDescriptor` (instance.rs lines 62-67). `supports_surface` records
whether a surface was supplied (whether the source field is `Some`). -/
structure AdapterDescriptor where
  device_extensions : List Nat
  supports_graphics : Bool
  supports_compute : Bool
  supports_surface : Bool
deriving DecidableEq, Repr

/-- `AdapterDescriptor::compatible` (instance.rs lines 70-84). -/
def AdapterDescriptor.compatible (d : AdapterDescriptor) (q : QueueFamily) : Bool :=
  if d.supports_graphics && !q.supports_graphics then false
  else if d.supports_compute && !q.supports_compute then false
  else if d.supports_surface && !(q.supports_surface_result.getD false) then false
  else true

abbrev Candidate := PhysicalDevice × QueueFamily

/-- The filter / filter_map pipeline of `Instance::request_adapter`
(instance.rs lines 29-38): devices whose extensions are a superset of the
required ones, paired with the first compatible queue family. -/
def candidates (devices : List PhysicalDevice) (desc : AdapterDescriptor) :
    List Candidate :=
  (devices.filter
      (fun p => isSupersetOf p.supportedExtensions desc.device_extensions)).filterMap
    (fun p => (p.queueFamilies.find? (fun q => desc.compatible q)).map (fun q => (p, q)))

/-- The `min_by_key` key applied to a candidate pair. -/
def rankOfCandidate (c : Candidate) : Nat :=
  deviceTypeRank c.1.deviceType

/-- One step of Rust `Iterator::min_by_key`: keep the accumulator unless the
new element is strictly smaller (ties go to the earlier element). -/
def keepLower (acc y : Candidate) : Candidate :=
  if rankOfCandidate y < rankOfCandidate acc then y else acc

/-- Rust `Iterator::min_by_key` over the candidate list: `none` on an empty
list, otherwise the first element of minimal key. -/
def minByDeviceType (l : List Candidate) : Option Candidate :=
  match l with
  | [] => none
  | x :: xs => some (xs.foldl keepLower x)

/-- `Instance::request_adapter` (instance.rs lines 28-58). `none` models the
final `.unwrap()` panicking because no device qualified. -/
def request_adapter (devices : List PhysicalDevice) (desc : AdapterDescriptor) :
    Option Candidate :=
  minByDeviceType (candidates devices desc)

/- ## Surface and swapchain (src/hammer/surface.rs) -/

/-- `vulkano::format::Format`, abstracted to an identifier. -/
abbrev Format := Nat

/-- A window extent, `[u32; 2]`. -/
abbrev Extent := Nat × Nat

/-- A `vulkano::SwapchainImage`, abstracted to a handle id and its format. -/
structure Image where
  id : Nat
  format : Format
deriving DecidableEq, Repr

/-- The fields of `vulkano::SwapchainCreateInfo` that surface.rs sets
(lines 77-92): everything else is `Default::default()` and never revisited. -/
structure SwapchainCreateInfo where
  min_image_count : Nat
  image_format : Format
  image_extent : Extent
  image_usage : Nat
  composite_alpha : Nat
deriving DecidableEq, Repr

/-- `ImageUsage::color_attachment()`, abstracted to an identifier. -/
def imageUsageColorAttachment : Nat := 1

/-- The `hammer::Swapchain` wrapper (surface.rs lines 20-26); the `device`
field is an opaque handle and is not modelled. -/
structure Swapchain where
  createInfo : SwapchainCreateInfo
  images : List Image
deriving DecidableEq, Repr

/-- The `hammer::Surface` wrapper (surface.rs lines 29-34). `windowExtent`
is the value of `surface.window().inner_size()`. -/
structure Surface where
  windowExtent : Extent
  swapchain : Option Swapchain
deriving DecidableEq, Repr

/-- The fields of `vulkano` surface capabilities that `create_swapchain`
reads: the minimum image count and the supported composite-alpha modes. -/
structure SurfaceCapabilities where
  min_image_count : Nat
  supported_composite_alpha : List Nat
deriving DecidableEq, Repr

/-- Driver reply to `vulkano::Swapchain::new` / `Swapchain::recreate`
(external library code): the produced image list, or a creation error. -/
inductive SwapchainCreationResult where
  | ok (images : List Image)
  | imageExtentNotSupported
  | err (msg : String)
deriving DecidableEq, Repr

/-- `Surface::create_swapchain` (surface.rs lines 57-104). The driver oracle
models `vulkano::Swapchain::new`; `surfaceFormats` models the reply of
`surface_formats` (the code indexes `[0]`, panicking when empty) and
`caps` the reply of `surface_capabilities`. Every creation error is met by
`.unwrap()`, i.e. a panic. On success the function stores the new swapchain
and returns `true`. -/
def Surface.create_swapchain (caps : SurfaceCapabilities) (surfaceFormats : List Format)
    (driver : SwapchainCreateInfo → SwapchainCreationResult) (s : Surface) :
    Except String (Bool × Surface) :=
  match surfaceFormats.head? with
  | none => .error "index out of bounds"
  | some fmt =>
    match caps.supported_composite_alpha.head? with
    | none => .error "called Option unwrap on a None value"
    | some alpha =>
      let info : SwapchainCreateInfo :=
        { min_image_count := caps.min_image_count
          image_format := fmt
          image_extent := s.windowExtent
          image_usage := imageUsageColorAttachment
          composite_alpha := alpha }
      match driver info with
      | .ok imgs =>
          .ok (true, { s with swapchain := some { createInfo := info, images := imgs } })
      | _ => .error "Failed to create swapchain"

/-- `Surface::recreate_swapchain` (surface.rs lines 105-123). The driver
oracle models `vulkano::Swapchain::recreate`, called with the stored create
info whose extent is replaced by the current window inner size. An
`ImageExtentNotSupported` reply returns `false` with the surface untouched;
any other error is a panic; on success the stored swapchain and images are
replaced and the call returns `true`. With no swapchain present the call
returns `false`. -/
def Surface.recreate_swapchain (driver : SwapchainCreateInfo → SwapchainCreationResult)
    (s : Surface) : Except String (Bool × Surface) :=
  match s.swapchain with
  | some sc =>
    let info : SwapchainCreateInfo := { sc.createInfo with image_extent := s.windowExtent }
    match driver info with
    | .ok newImages =>
        .ok (true, { s with swapchain := some { createInfo := info, images := newImages } })
    | .imageExtentNotSupported => .ok (false, s)
    | .err e => .error ("Failed to recreate swapchain: " ++ e)
  | none => .ok (false, s)

/-- Driver reply to `vulkano::swapchain::acquire_next_image`. -/
inductive AcquireResult where
  | ok (image_num : Nat) (suboptimal : Bool)
  | outOfDate
  | err (msg : String)
deriving DecidableEq, Repr

/-- `hammer::SurfaceImage` (surface.rs lines 145-152); the acquire future it
carries is represented in the frame loop by the image number joined into the
submission chain. -/
structure SurfaceImage where
  image : Image
  suboptimal : Bool
  image_num : Nat
deriving DecidableEq, Repr

/-- `Surface::get_current_image` (surface.rs lines 124-138). The swapchain
slot is unwrapped (panicking when `none`); then **every** acquisition error,
`OutOfDate` included, is met with `panic!` (the match at lines 127-130). On
success the image at `image_num` is indexed (a panic when out of range). -/
def Surface.get_current_image (acquire : AcquireResult) (s : Surface) :
    Except String SurfaceImage :=
  match s.swapchain with
  | none => .error "called Option unwrap on a None value"
  | some sc =>
    match acquire with
    | .ok n subopt =>
      match sc.images.get? n with
      | some img => .ok { image := img, suboptimal := subopt, image_num := n }
      | none => .error "index out of bounds"
    | .outOfDate => .error "Failed to acquire next image: OutOfDate"
    | .err e => .error ("Failed to acquire next image: " ++ e)

/-- `Surface::image_format` (surface.rs lines 139-141). -/
def Surface.image_format (s : Surface) : Option Format :=
  s.swapchain.map (fun sc => sc.createInfo.image_format)

/- ## The per-frame event loop (src/main.rs, RedrawEventsCleared arm) -/

/-- A boxed `GpuFuture` as retained by the loop: either `sync::now(device)`
(a completed no-op future) or the chain built at submission, which *consumes*
the previous future by joining it with the acquired image availability future
before executing and presenting (main.rs lines 373-386). -/
inductive Future where
  | now
  | chain (prev : Future) (image_num : Nat)
deriving DecidableEq, Repr

/-- Result of `then_signal_fence_and_flush` (external library code). -/
inductive FlushResult where
  | ok
  | outOfDate
  | err (msg : String)
deriving DecidableEq, Repr

/-- The driver replies consumed by one `RedrawEventsCleared` iteration:
the `Swapchain::recreate` reply (used only when recreation is attempted),
the `acquire_next_image` reply and the flush reply. -/
structure FrameInputs where
  recreateResult : SwapchainCreationResult
  acquireResult : AcquireResult
  flushResult : FlushResult
deriving DecidableEq, Repr

/-- The loop-carried state of `main`: the `recreate_swapchain` flag
(main.rs line 254), the surface, and `previous_frame_end` (line 262). -/
structure LoopState where
  recreate_swapchain : Bool
  surface : Surface
  previous_frame_end : Option Future
deriving DecidableEq, Repr

/-- What one iteration produced besides the next state: whether a command
buffer was built and the frame submitted/presented, and the `println` log. -/
structure StepOutput where
  state : LoopState
  submitted : Bool
  log : List String
deriving DecidableEq, Repr

/-- main.rs lines 287-290: `if recreate_swapchain { surface.recreate_swapchain();
recreate_swapchain = false; }`. The boolean returned by
`Surface::recreate_swapchain` is **ignored** and the flag is cleared
unconditionally; a panic inside recreation propagates. -/
def recreatePhase (i : FrameInputs) (s : LoopState) : Except String (Surface × Bool) :=
  if s.recreate_swapchain then
    match s.surface.recreate_swapchain (fun _ => i.recreateResult) with
    | .ok r => .ok (r.2, false)
    | .error e => .error e
  else .ok (s.surface, s.recreate_swapchain)

/-- main.rs lines 312-400, after the previous-frame future `prev` has been
taken: acquire the image (`Surface::get_current_image`, which panics on any
acquisition error), set the flag when the image is suboptimal, build and
submit the command buffer, and match on the flush result: on success retain
the chained future; on `FlushError::OutOfDate` set the flag and store a
completed no-op future; on any other error log it and store a completed
no-op future. -/
def drawPhase (i : FrameInputs) (prev : Future) (flag1 : Bool) (surf1 : Surface) :
    Except String StepOutput :=
  match surf1.get_current_image i.acquireResult with
  | .error e => .error e
  | .ok targetImage =>
    let flag2 := if targetImage.suboptimal then true else flag1
    match i.flushResult with
    | .ok =>
        .ok { state := { recreate_swapchain := flag2, surface := surf1,
                         previous_frame_end := some (.chain prev targetImage.image_num) },
              submitted := true, log := [] }
    | .outOfDate =>
        .ok { state := { recreate_swapchain := true, surface := surf1,
                         previous_frame_end := some .now },
              submitted := true, log := [] }
    | .err e =>
        .ok { state := { recreate_swapchain := flag2, surface := surf1,
                         previous_frame_end := some .now },
              submitted := true, log := ["Failed to flush future: " ++ e] }

/-- One `Event::RedrawEventsCleared` iteration (main.rs lines 278-401).
`previous_frame_end.as_mut().unwrap()` is called first (line 283), so a
`none` slot is a panic; the future it holds is later consumed by `take()`
at submission. -/
def redrawEventsCleared (i : FrameInputs) (s : LoopState) : Except String StepOutput :=
  match s.previous_frame_end with
  | none => .error "called Option unwrap on a None value"
  | some prev =>
    match recreatePhase i s with
    | .error e => .error e
    | .ok (surf1, flag1) => drawPhase i prev flag1 surf1

/-- Iterated redraw events: the loop body applied to a list of per-iteration
driver replies; a panic stops the run. -/
def runLoop (s : LoopState) : List FrameInputs → Except String LoopState
  | [] => .ok s
  | i :: rest =>
    match redrawEventsCleared i s with
    | .ok out => runLoop out.state rest
    | .error e => .error e

/-- The state entering the event loop (main.rs lines 254 and 262):
flag clear, `previous_frame_end = Some(sync::now(device).boxed())`. -/
def initialLoopState (surf : Surface) : LoopState :=
  { recreate_swapchain := false, surface := surf, previous_frame_end := some .now }

/- ## Concrete fixtures used by the witness theorems -/

def exQueueFamily : QueueFamily :=
  { supports_graphics := true, supports_compute := false, supports_surface_result := some true }

def exDeviceCpu : PhysicalDevice :=
  { deviceType := .cpu, supportedExtensions := [7], queueFamilies := [exQueueFamily] }

def exDeviceDiscrete : PhysicalDevice :=
  { deviceType := .discreteGpu, supportedExtensions := [7], queueFamilies := [exQueueFamily] }

def exDescriptor : AdapterDescriptor :=
  { device_extensions := [7], supports_graphics := true, supports_compute := false,
    supports_surface := true }

def exCreateInfo : SwapchainCreateInfo :=
  { min_image_count := 2, image_format := 5, image_extent := (100, 100),
    image_usage := imageUsageColorAttachment, composite_alpha := 0 }

def exSwapchain : Swapchain :=
  { createInfo := exCreateInfo, images := [{ id := 0, format := 5 }, { id := 1, format := 5 }] }

def exSurface : Surface := { windowExtent := (100, 100), swapchain := some exSwapchain }

def exEmptySurface : Surface := { windowExtent := (100, 100), swapchain := none }

/- ## Claim theorems: surface / swapchain lifecycle -/

/-- Claim C4: with a swapchain present, a recreation attempt that the driver
answers with `ImageExtentNotSupported` returns `false` without panicking and
leaves the surface (swapchain and image list included) completely unchanged,
while any other recreation error panics. -/
theorem recreate_swapchain_error_policy
    (driver : SwapchainCreateInfo → SwapchainCreationResult) (s : Surface) (sc : Swapchain)
    (hsc : s.swapchain = some sc) :
    (driver { sc.createInfo with image_extent := s.windowExtent } = .imageExtentNotSupported →
      s.recreate_swapchain driver = .ok (false, s)) ∧
    (∀ e, driver { sc.createInfo with image_extent := s.windowExtent } = .err e →
      s.recreate_swapchain driver = .error ("Failed to recreate swapchain: " ++ e)) := by
  constructor
  · intro hd
    unfold Surface.recreate_swapchain
    rw [hsc]
    simp only [hd]
  · intro e hd
    unfold Surface.recreate_swapchain
    rw [hsc]
    simp only [hd]

theorem recreate_swapchain_error_policy_witness :
    Surface.recreate_swapchain (fun _ => .imageExtentNotSupported) exSurface
      = .ok (false, exSurface) :=
  (recreate_swapchain_error_policy (fun _ => .imageExtentNotSupported)
    exSurface exSwapchain rfl).1 rfl

/-- Claim C9: with an empty swapchain slot, `recreate_swapchain` returns
`false` and leaves the surface unchanged, without panicking. -/
theorem recreate_swapchain_without_swapchain
    (driver : SwapchainCreateInfo → SwapchainCreationResult) (s : Surface)
    (h : s.swapchain = none) :
    s.recreate_swapchain driver = .ok (false, s) := by
  unfold Surface.recreate_swapchain
  rw [h]

theorem recreate_swapchain_without_swapchain_witness :
    Surface.recreate_swapchain (fun _ => .ok []) exEmptySurface = .ok (false, exEmptySurface) :=
  recreate_swapchain_without_swapchain (fun _ => .ok []) exEmptySurface rfl

/-- Claim C8: recreating under an unchanged window extent (and a driver that
deterministically reproduces the swapchain it created from the identical
create info) succeeds and yields a swapchain with the same creation
parameters, the same image count and the same format as before. -/
theorem recreate_noop_resize
    (driver : SwapchainCreateInfo → SwapchainCreationResult) (s : Surface) (sc : Swapchain)
    (hsc : s.swapchain = some sc)
    (hext : sc.createInfo.image_extent = s.windowExtent)
    (hdrv : driver sc.createInfo = .ok sc.images) :
    ∃ s', s.recreate_swapchain driver = .ok (true, s') ∧
      ∃ sc', s'.swapchain = some sc' ∧
        sc'.createInfo = sc.createInfo ∧
        sc'.images.length = sc.images.length ∧
        sc'.createInfo.image_format = sc.createInfo.image_format := by
  have hinfo : ({ sc.createInfo with image_extent := s.windowExtent } : SwapchainCreateInfo)
      = sc.createInfo := by
    rw [← hext]
  refine ⟨{ s with swapchain := some { createInfo := sc.createInfo, images := sc.images } },
    ?_, { createInfo := sc.createInfo, images := sc.images }, rfl, rfl, rfl, rfl⟩
  unfold Surface.recreate_swapchain
  rw [hsc]
  simp only [hinfo, hdrv]

theorem recreate_noop_resize_witness :
    ∃ s', Surface.recreate_swapchain (fun _ => .ok exSwapchain.images) exSurface
        = .ok (true, s') ∧
      ∃ sc', s'.swapchain = some sc' ∧
        sc'.createInfo = exSwapchain.createInfo ∧
        sc'.images.length = exSwapchain.images.length ∧
        sc'.createInfo.image_format = exSwapchain.createInfo.image_format :=
  recreate_noop_resize (fun _ => .ok exSwapchain.images) exSurface exSwapchain rfl rfl rfl

/-- Claim C10: with an empty swapchain slot `get_current_image` panics on the
`Option` unwrap, for every acquisition reply; with a swapchain present the
slot unwraps cannot fail and a successful in-range acquisition yields the
indexed image; `create_swapchain` (when it returns at all) and
`recreate_swapchain` both establish / preserve the presence of a swapchain,
so acquisition after a successful creation never hits the `none` unwrap. -/
theorem get_current_image_requires_swapchain (s : Surface) (acq : AcquireResult) :
    (s.swapchain = none →
      s.get_current_image acq = .error "called Option unwrap on a None value") ∧
    (∀ sc, s.swapchain = some sc → ∀ n subopt, acq = .ok n subopt →
      ∀ h : n < sc.images.length,
      s.get_current_image acq = .ok { image := sc.images.get ⟨n, h⟩,
                                      suboptimal := subopt, image_num := n }) ∧
    (∀ caps fmts driver b s', s.create_swapchain caps fmts driver = .ok (b, s') →
      s'.swapchain.isSome = true) ∧
    (∀ driver b s', s.recreate_swapchain driver = .ok (b, s') →
      s.swapchain.isSome = true → s'.swapchain.isSome = true) := by
  refine ⟨?_, ?_, ?_, ?_⟩
  · intro h
    unfold Surface.get_current_image
    rw [h]
  · intro sc hsc n subopt hacq h
    unfold Surface.get_current_image
    rw [hsc, hacq]
    dsimp only
    rw [List.get?_eq_get h]
  · intro caps fmts driver b s' h
    unfold Surface.create_swapchain at h
    split at h
    · exact absurd h (by simp)
    · split at h
      · exact absurd h (by simp)
      · dsimp only at h
        split at h
        · simp only [Except.ok.injEq, Prod.mk.injEq] at h
          rw [← h.2]
          rfl
        · exact absurd h (by simp)
  · intro driver b s' h hsome
    unfold Surface.recreate_swapchain at h
    split at h
    · dsimp only at h
      split at h
      · simp only [Except.ok.injEq, Prod.mk.injEq] at h
        rw [← h.2]
        rfl
      · simp only [Except.ok.injEq, Prod.mk.injEq] at h
        rw [← h.2]
        exact hsome
      · exact absurd h (by simp)
    · simp only [Except.ok.injEq, Prod.mk.injEq] at h
      rw [← h.2]
      exact hsome

theorem get_current_image_requires_swapchain_witness :
    Surface.get_current_image (.ok 1 true) exSurface
      = .ok { image := exSwapchain.images.get ⟨1, by decide⟩,
              suboptimal := true, image_num := 1 } :=
  (get_current_image_requires_swapchain exSurface (.ok 1 true)).2.1
    exSwapchain rfl 1 true rfl (by decide)

/- ## Claim theorems: frame-loop staleness and recreation flag handling -/

/-- Claim C2 is violated by the code: with a valid swapchain present, an
`OutOfDate` reply from `acquire_next_image` makes the iteration panic inside
`Surface::get_current_image` (surface.rs line 129) instead of flagging
recreation and skipping the frame, because the `AcquireError::OutOfDate`
arm that would do so survives only inside a comment (main.rs lines 301-311).
This theorem evaluates the loop body at such an iteration. -/
theorem acquire_outOfDate_panics :
    redrawEventsCleared
      { recreateResult := .ok [], acquireResult := .outOfDate, flushResult := .ok }
      { recreate_swapchain := false, surface := exSurface, previous_frame_end := some .now }
      = .error "Failed to acquire next image: OutOfDate" := rfl

/-- Claim C3 is violated by the code: an iteration that begins with the
recreation flag set and whose recreation attempt fails softly
(`ImageExtentNotSupported`) still *clears* the flag, because main.rs lines
287-290 ignore the boolean returned by `Surface::recreate_swapchain` and
assign `recreate_swapchain = false` unconditionally. This theorem evaluates
the loop body at such an iteration: the old swapchain is kept but the final
state has the flag cleared, so no retry is scheduled. -/
theorem soft_recreate_failure_clears_flag :
    redrawEventsCleared
      { recreateResult := .imageExtentNotSupported, acquireResult := .ok 0 false,
        flushResult := .ok }
      { recreate_swapchain := true, surface := exSurface, previous_frame_end := some .now }
      = .ok { state := { recreate_swapchain := false, surface := exSurface,
                         previous_frame_end := some (.chain .now 0) },
              submitted := true, log := [] } := rfl

/-- Claim C5: given the flush result match of main.rs lines 388-400 is
reached (previous future present, recreation phase ran without panic,
acquisition succeeded), a successful flush retains the chained future as the
new previous-frame future; `FlushError::OutOfDate` sets the recreation flag
and substitutes a completed no-op future; any other flush error is logged
and likewise substituted with a completed no-op future; and in every flush
case the iteration ends without aborting, with exactly one future stored. -/
theorem flush_error_policy (i : FrameInputs) (s : LoopState) (prev : Future)
    (surf1 : Surface) (flag1 : Bool) (img : SurfaceImage)
    (hprev : s.previous_frame_end = some prev)
    (hrec : recreatePhase i s = .ok (surf1, flag1))
    (hacq : surf1.get_current_image i.acquireResult = .ok img) :
    (i.flushResult = .ok →
      redrawEventsCleared i s = .ok
        { state := { recreate_swapchain := if img.suboptimal then true else flag1,
                     surface := surf1,
                     previous_frame_end := some (.chain prev img.image_num) },
          submitted := true, log := [] }) ∧
    (i.flushResult = .outOfDate →
      redrawEventsCleared i s = .ok
        { state := { recreate_swapchain := true, surface := surf1,
                     previous_frame_end := some .now },
          submitted := true, log := [] }) ∧
    (∀ e, i.flushResult = .err e →
      redrawEventsCleared i s = .ok
        { state := { recreate_swapchain := if img.suboptimal then true else flag1,
                     surface := surf1, previous_frame_end := some .now },
          submitted := true, log := ["Failed to flush future: " ++ e] }) ∧
    (∃ out, redrawEventsCleared i s = .ok out ∧
      out.state.previous_frame_end.isSome = true) := by
  have hred : redrawEventsCleared i s = drawPhase i prev flag1 surf1 := by
    unfold redrawEventsCleared
    rw [hprev, hrec]
  have h1 : i.flushResult = .ok →
      redrawEventsCleared i s = .ok
        { state := { recreate_swapchain := if img.suboptimal then true else flag1,
                     surface := surf1,
                     previous_frame_end := some (.chain prev img.image_num) },
          submitted := true, log := [] } := by
    intro hf
    rw [hred]
    unfold drawPhase
    rw [hacq, hf]
  have h2 : i.flushResult = .outOfDate →
      redrawEventsCleared i s = .ok
        { state := { recreate_swapchain := true, surface := surf1,
                     previous_frame_end := some .now },
          submitted := true, log := [] } := by
    intro hf
    rw [hred]
    unfold drawPhase
    rw [hacq, hf]
  have h3 : ∀ e, i.flushResult = .err e →
      redrawEventsCleared i s = .ok
        { state := { recreate_swapchain := if img.suboptimal then true else flag1,
                     surface := surf1, previous_frame_end := some .now },
          submitted := true, log := ["Failed to flush future: " ++ e] } := by
    intro e hf
    rw [hred]
    unfold drawPhase
    rw [hacq, hf]
  refine ⟨h1, h2, h3, ?_⟩
  cases hf : i.flushResult with
  | ok => exact ⟨_, h1 hf, rfl⟩
  | outOfDate => exact ⟨_, h2 hf, rfl⟩
  | err e => exact ⟨_, h3 e hf, rfl⟩

def exInputs : FrameInputs :=
  { recreateResult := .ok [], acquireResult := .ok 0 false, flushResult := .ok }

theorem flush_error_policy_witness :
    redrawEventsCleared exInputs
      { recreate_swapchain := false, surface := exSurface, previous_frame_end := some .now }
      = .ok { state := { recreate_swapchain := if false then true else false,
                         surface := exSurface, previous_frame_end := some (.chain .now 0) },
              submitted := true, log := [] } :=
  (flush_error_policy exInputs
    { recreate_swapchain := false, surface := exSurface, previous_frame_end := some .now }
    .now exSurface false { image := { id := 0, format := 5 }, suboptimal := false,
                           image_num := 0 }
    rfl rfl rfl).1 rfl

/-- Claim C6: when acquisition succeeds but flags the image suboptimal, the
iteration sets the recreation flag for the next iteration and still builds,
submits and presents the frame, whatever the flush outcome. -/
theorem suboptimal_still_draws (i : FrameInputs) (s : LoopState) (prev : Future)
    (surf1 : Surface) (flag1 : Bool) (img : SurfaceImage)
    (hprev : s.previous_frame_end = some prev)
    (hrec : recreatePhase i s = .ok (surf1, flag1))
    (hacq : surf1.get_current_image i.acquireResult = .ok img)
    (hsub : img.suboptimal = true) :
    ∃ out, redrawEventsCleared i s = .ok out ∧
      out.state.recreate_swapchain = true ∧ out.submitted = true := by
  have hred : redrawEventsCleared i s = drawPhase i prev flag1 surf1 := by
    unfold redrawEventsCleared
    rw [hprev, hrec]
  cases hf : i.flushResult with
  | ok =>
    have hh : redrawEventsCleared i s = .ok
        { state := { recreate_swapchain := true, surface := surf1,
                     previous_frame_end := some (.chain prev img.image_num) },
          submitted := true, log := [] } := by
      rw [hred]
      unfold drawPhase
      rw [hacq, hf]
      dsimp only
      rw [hsub]
      rfl
    exact ⟨_, hh, rfl, rfl⟩
  | outOfDate =>
    have hh : redrawEventsCleared i s = .ok
        { state := { recreate_swapchain := true, surface := surf1,
                     previous_frame_end := some .now },
          submitted := true, log := [] } := by
      rw [hred]
      unfold drawPhase
      rw [hacq, hf]
    exact ⟨_, hh, rfl, rfl⟩
  | err e =>
    have hh : redrawEventsCleared i s = .ok
        { state := { recreate_swapchain := true, surface := surf1,
                     previous_frame_end := some .now },
          submitted := true, log := ["Failed to flush future: " ++ e] } := by
      rw [hred]
      unfold drawPhase
      rw [hacq, hf]
      dsimp only
      rw [hsub]
      rfl
    exact ⟨_, hh, rfl, rfl⟩

theorem suboptimal_still_draws_witness :
    ∃ out, redrawEventsCleared
        { recreateResult := .ok [], acquireResult := .ok 1 true, flushResult := .ok }
        { recreate_swapchain := false, surface := exSurface, previous_frame_end := some .now }
        = .ok out ∧
      out.state.recreate_swapchain = true ∧ out.submitted = true :=
  suboptimal_still_draws
    { recreateResult := .ok [], acquireResult := .ok 1 true, flushResult := .ok }
    { recreate_swapchain := false, surface := exSurface, previous_frame_end := some .now }
    .now exSurface false
    { image := { id := 1, format := 5 }, suboptimal := true, image_num := 1 }
    rfl rfl rfl rfl

/-- Every iteration that returns stores exactly one future in the slot, and
that future is either a fresh completed no-op future or the chain built by
consuming (joining) the previous future: the old future is never retained
alongside the new one. -/
theorem step_stores_future (i : FrameInputs) (s : LoopState) (out : StepOutput)
    (h : redrawEventsCleared i s = .ok out) :
    ∃ f, out.state.previous_frame_end = some f ∧
      (f = .now ∨ ∃ p n, s.previous_frame_end = some p ∧ f = .chain p n) := by
  unfold redrawEventsCleared at h
  cases hp : s.previous_frame_end with
  | none => rw [hp] at h; exact absurd h (by simp)
  | some prev =>
    rw [hp] at h
    dsimp only at h
    cases hr : recreatePhase i s with
    | error e => rw [hr] at h; exact absurd h (by simp)
    | ok r =>
      rw [hr] at h
      obtain ⟨surf1, flag1⟩ := r
      dsimp only at h
      unfold drawPhase at h
      cases ha : surf1.get_current_image i.acquireResult with
      | error e => rw [ha] at h; exact absurd h (by simp)
      | ok img =>
        rw [ha] at h
        dsimp only at h
        cases hf : i.flushResult with
        | ok =>
          rw [hf] at h
          dsimp only at h
          injection h with h
          subst h
          exact ⟨.chain prev img.image_num, rfl, .inr ⟨prev, img.image_num, rfl, rfl⟩⟩
        | outOfDate =>
          rw [hf] at h
          dsimp only at h
          injection h with h
          subst h
          exact ⟨.now, rfl, .inl rfl⟩
        | err e =>
          rw [hf] at h
          dsimp only at h
          injection h with h
          subst h
          exact ⟨.now, rfl, .inl rfl⟩

/-- The previous-frame slot holds a future after any run of the loop that
started with one. -/
theorem runLoop_future_isSome (inputs : List FrameInputs) :
    ∀ s : LoopState, s.previous_frame_end.isSome = true →
      ∀ s', runLoop s inputs = .ok s' → s'.previous_frame_end.isSome = true := by
  induction inputs with
  | nil =>
    intro s hs s' h
    unfold runLoop at h
    injection h with h
    subst h
    exact hs
  | cons i rest ih =>
    intro s hs s' h
    unfold runLoop at h
    cases hstep : redrawEventsCleared i s with
    | error e => rw [hstep] at h; exact absurd h (by simp)
    | ok out =>
      rw [hstep] at h
      obtain ⟨f, hf, _⟩ := step_stores_future i s out hstep
      refine ih out.state ?_ s' h
      rw [hf]
      rfl

/-- Claim C7: starting from the initial loop state (which retains exactly one
future, the completed `sync::now`), after every prefix of iterations the
previous-frame slot again holds exactly one future; and each iteration stores
a future that is either a completed no-op or the chain obtained by consuming
the previously retained future, so two un-retired futures are never retained
simultaneously. -/
theorem single_future_invariant (surf : Surface) (inputs : List FrameInputs) :
    (∀ pre post : List FrameInputs, inputs = pre ++ post →
      ∀ s', runLoop (initialLoopState surf) pre = .ok s' →
        s'.previous_frame_end.isSome = true) ∧
    (∀ (i : FrameInputs) (s : LoopState) (out : StepOutput),
      redrawEventsCleared i s = .ok out →
      ∃ f, out.state.previous_frame_end = some f ∧
        (f = .now ∨ ∃ p n, s.previous_frame_end = some p ∧ f = .chain p n)) := by
  constructor
  · intro pre _ _ s' h
    exact runLoop_future_isSome pre (initialLoopState surf) rfl s' h
  · exact fun i s out h => step_stores_future i s out h

/- ## Claim theorems: adapter selection -/

/-- The accumulator never loses to the fold result. -/
theorem foldl_keepLower_le (l : List Candidate) :
    ∀ acc, rankOfCandidate (l.foldl keepLower acc) ≤ rankOfCandidate acc := by
  induction l with
  | nil => intro acc; exact le_refl _
  | cons y ys ih =>
    intro acc
    rw [List.foldl_cons]
    refine le_trans (ih (keepLower acc y)) ?_
    unfold keepLower
    split
    · exact Nat.le_of_lt (by assumption)
    · exact le_refl _

/-- The fold result has minimal rank among the list elements. -/
theorem foldl_keepLower_le_mem (l : List Candidate) :
    ∀ acc y, y ∈ l → rankOfCandidate (l.foldl keepLower acc) ≤ rankOfCandidate y := by
  induction l with
  | nil => intro acc y hy; cases hy
  | cons z zs ih =>
    intro acc y hy
    rw [List.foldl_cons]
    rcases List.mem_cons.mp hy with h | h
    · subst h
      refine le_trans (foldl_keepLower_le zs (keepLower acc y)) ?_
      unfold keepLower
      split
      · exact le_refl _
      · exact Nat.le_of_not_lt (by assumption)
    · exact ih (keepLower acc z) y h

/-- The fold result is the accumulator or a strictly better list element. -/
theorem foldl_keepLower_mem_or (l : List Candidate) :
    ∀ acc, l.foldl keepLower acc = acc ∨
      (l.foldl keepLower acc ∈ l ∧
        rankOfCandidate (l.foldl keepLower acc) < rankOfCandidate acc) := by
  induction l with
  | nil => intro acc; exact .inl rfl
  | cons y ys ih =>
    intro acc
    rw [List.foldl_cons]
    rcases ih (keepLower acc y) with h | ⟨hmem, hlt⟩
    · rw [h]
      unfold keepLower
      split
      · exact .inr ⟨List.mem_cons_self _ _, by assumption⟩
      · exact .inl rfl
    · refine .inr ⟨List.mem_cons_of_mem _ hmem, lt_of_lt_of_le hlt ?_⟩
      unfold keepLower
      split
      · exact Nat.le_of_lt (by assumption)
      · exact le_refl _

/-- The fold result belongs to the accumulator-plus-list. -/
theorem foldl_keepLower_mem (l : List Candidate) (acc : Candidate) :
    l.foldl keepLower acc ∈ acc :: l := by
  rcases foldl_keepLower_mem_or l acc with h | ⟨h, _⟩
  · rw [h]; exact List.mem_cons_self _ _
  · exact List.mem_cons_of_mem _ h

/-- `min_by_key` ties break towards the earlier element: the fold result is
the *first* element of the list whose rank is minimal. -/
theorem foldl_keepLower_first (l : List Candidate) :
    ∀ acc, (acc :: l).find?
        (fun y => decide (rankOfCandidate y ≤ rankOfCandidate (l.foldl keepLower acc)))
      = some (l.foldl keepLower acc) := by
  induction l with
  | nil =>
    intro acc
    rw [List.foldl_nil]
    exact List.find?_cons_of_pos _ (by simp)
  | cons y ys ih =>
    intro acc
    rw [List.foldl_cons]
    have ih' := ih (keepLower acc y)
    have hle := foldl_keepLower_le ys (keepLower acc y)
    revert ih' hle
    generalize List.foldl keepLower (keepLower acc y) ys = r
    intro ih' hle
    by_cases hy : rankOfCandidate y < rankOfCandidate acc
    · have hk : keepLower acc y = y := by unfold keepLower; rw [if_pos hy]
      rw [hk] at ih' hle
      have hlt : rankOfCandidate r < rankOfCandidate acc := lt_of_le_of_lt hle hy
      rw [List.find?_cons_of_neg _ (by simp [decide_eq_true_eq]; exact hlt)]
      exact ih'
    · have hk : keepLower acc y = acc := by unfold keepLower; rw [if_neg hy]
      rw [hk] at ih' hle
      have hay : rankOfCandidate acc ≤ rankOfCandidate y := Nat.le_of_not_lt hy
      by_cases hacc : rankOfCandidate acc ≤ rankOfCandidate r
      · rw [List.find?_cons_of_pos _ (by simp [decide_eq_true_eq]; exact hacc)] at ih'
        rw [List.find?_cons_of_pos _ (by simp [decide_eq_true_eq]; exact hacc)]
        exact ih'
      · have hracc : rankOfCandidate r < rankOfCandidate acc := Nat.lt_of_not_le hacc
        rw [List.find?_cons_of_neg _ (by simp [decide_eq_true_eq]; exact hracc)] at ih'
        rw [List.find?_cons_of_neg _ (by simp [decide_eq_true_eq]; exact hracc)]
        rw [List.find?_cons_of_neg _
          (by simp [decide_eq_true_eq]; exact lt_of_lt_of_le hracc hay)]
        exact ih'

/-- Claim C1: whenever `request_adapter` selects a device and queue family,
the selected device is an enumerated one whose supported extensions are a
superset of the required extensions, the selected queue family is one of its
queue families and satisfies the requested capabilities, the selected device
has minimal (best) device-type rank among all qualifying devices
(discrete < integrated < virtual < cpu < other), and the selection is
pinned down uniquely — it is the first minimal-rank entry of the
deterministic candidate list — so a fixed device list always yields the
same choice. -/
theorem request_adapter_correct (devices : List PhysicalDevice) (desc : AdapterDescriptor)
    (p : PhysicalDevice) (q : QueueFamily)
    (h : request_adapter devices desc = some (p, q)) :
    (p ∈ devices ∧ isSupersetOf p.supportedExtensions desc.device_extensions = true ∧
      q ∈ p.queueFamilies ∧ desc.compatible q = true) ∧
    (∀ p' ∈ devices, isSupersetOf p'.supportedExtensions desc.device_extensions = true →
      (∃ q' ∈ p'.queueFamilies, desc.compatible q' = true) →
      deviceTypeRank p.deviceType ≤ deviceTypeRank p'.deviceType) ∧
    (candidates devices desc).find?
        (fun c => decide (rankOfCandidate c ≤ deviceTypeRank p.deviceType))
      = some (p, q) := by
  unfold request_adapter minByDeviceType at h
  cases hc : candidates devices desc with
  | nil => rw [hc] at h; exact absurd h (by simp)
  | cons x xs =>
    rw [hc] at h
    dsimp only at h
    injection h with h
    have hmemc : (p, q) ∈ candidates devices desc := by
      rw [hc, ← h]
      exact foldl_keepLower_mem xs x
    have hmin : ∀ c ∈ candidates devices desc,
        rankOfCandidate (p, q) ≤ rankOfCandidate c := by
      intro c hcmem
      rw [hc] at hcmem
      rcases List.mem_cons.mp hcmem with h1 | h1
      · rw [h1, ← h]
        exact foldl_keepLower_le xs x
      · rw [← h]
        exact foldl_keepLower_le_mem xs x c h1
    obtain ⟨p0, hp0mem, hp0⟩ := List.mem_filterMap.mp hmemc
    obtain ⟨q0, hq0find, hq0eq⟩ := Option.map_eq_some'.mp hp0
    have hpp : p0 = p := congrArg Prod.fst hq0eq
    have hqq : q0 = q := congrArg Prod.snd hq0eq
    subst hpp
    subst hqq
    have hpdev := List.mem_filter.mp hp0mem
    refine ⟨⟨hpdev.1, hpdev.2, List.mem_of_find?_eq_some hq0find,
      List.find?_some hq0find⟩, ?_, ?_⟩
    · intro p' hp' hext ⟨q', hq'mem, hq'compat⟩
      cases hfind : p'.queueFamilies.find? (fun qq => desc.compatible qq) with
      | none =>
        exact absurd hq'compat (List.find?_eq_none.mp hfind q' hq'mem)
      | some q'' =>
        have hcand : (p', q'') ∈ candidates devices desc := by
          apply List.mem_filterMap.mpr
          exact ⟨p', List.mem_filter.mpr ⟨hp', hext⟩, by rw [hfind]; rfl⟩
        exact hmin (p', q'') hcand
    · show (x :: xs).find?
          (fun c => decide (rankOfCandidate c ≤ rankOfCandidate (p0, q0)))
        = some (p0, q0)
      rw [← h]
      exact foldl_keepLower_first xs x

theorem request_adapter_correct_witness :
    ((exDeviceDiscrete ∈ [exDeviceCpu, exDeviceDiscrete] ∧
      isSupersetOf exDeviceDiscrete.supportedExtensions exDescriptor.device_extensions = true ∧
      exQueueFamily ∈ exDeviceDiscrete.queueFamilies ∧
      exDescriptor.compatible exQueueFamily = true) ∧
    (∀ p' ∈ [exDeviceCpu, exDeviceDiscrete],
      isSupersetOf p'.supportedExtensions exDescriptor.device_extensions = true →
      (∃ q' ∈ p'.queueFamilies, exDescriptor.compatible q' = true) →
      deviceTypeRank exDeviceDiscrete.deviceType ≤ deviceTypeRank p'.deviceType) ∧
    (candidates [exDeviceCpu, exDeviceDiscrete] exDescriptor).find?
        (fun c => decide (rankOfCandidate c ≤ deviceTypeRank exDeviceDiscrete.deviceType))
      = some (exDeviceDiscrete, exQueueFamily)) :=
  request_adapter_correct [exDeviceCpu, exDeviceDiscrete] exDescriptor
    exDeviceDiscrete exQueueFamily (by rfl)

theorem single_future_invariant_witness :
    ({ recreate_swapchain := false, surface := exSurface,
       previous_frame_end := some (.chain .now 0) } : LoopState).previous_frame_end.isSome
      = true :=
  (single_future_invariant exSurface [exInputs]).1 [exInputs] [] rfl
    { recreate_swapchain := false, surface := exSurface,
      previous_frame_end := some (.chain .now 0) } (by rfl)

end Hammer
